import Mathlib

/-!
Verification of the dotenvy sync engine (Go sources: `internal/sync/engine.go`,
`internal/sync/filter.go`, `internal/model/diff.go`, `internal/model/target.go`,
`pkg/provider/provider.go`, `pkg/provider/registry.go`).

Shallow embedding conventions:
* Go interfaces with effectful methods become pure oracles: a provider handle
  (`Store`) carries `list` (the remote read, returning a value or an error
  message) and `set` (the remote write, returning `none` on success or
  `some errMsg` on failure).  Engine functions additionally return the trace of
  store mutations (`StoreCall`) they perform, so "never calls delete" is a
  statement about the trace.
* `createProvider` (which touches the process environment, keychains and the
  global factory registry) is abstracted by its outcome, an
  `Except String Store` argument.
* The global provider registry `provider.Get` becomes an explicit function
  `String → Option ProviderInfo`; Go's zero-value-on-miss behaviour is modelled
  where it is used.
* Go's `filepath.Match` glob primitive is standard-library code, outside this
  repository; the filter logic is parameterized over it
  (`globMatch : pattern → name → Bool`, errors ignored exactly as the source's
  `matched, _ :=` does).
* `source.Source.GetAll` returns a Go map; it is modelled as the lookup
  function of that map, `List String → String → Option String`.
* Go `error` values are modelled as `String` messages; `fmt.Errorf` wrapping
  becomes string concatenation of the same format.
-/

namespace Dotenvy

/-- `model.DiffType` (internal/model/diff.go): the five-way diff classification. -/
inductive DiffType where
  | add
  | remove
  | change
  | unchanged
  | unknown
deriving DecidableEq, Repr

/-- `model.SecretValue`: one remote secret name/value pair as returned by a
provider's `List`. -/
structure SecretValue where
  name : String
  value : String
deriving DecidableEq, Repr

/-- `model.SecretDiff` (internal/model/diff.go). -/
structure SecretDiff where
  name : String
  type : DiffType
  oldValue : String
  newValue : String
  environment : String
  sensitive : Bool
deriving DecidableEq, Repr

/-- `model.TargetDiff` (internal/model/diff.go). -/
structure TargetDiff where
  targetName : String
  targetType : String
  project : String
  diffs : List SecretDiff
deriving DecidableEq, Repr

/-- `model.SecretsFilter` (internal/model/target.go): glob include/exclude
lists.  Field names follow the Go capitalisation. -/
structure SecretsFilter where
  Include : List String
  Exclude : List String
deriving DecidableEq, Repr

/-- `model.Target` (internal/model/target.go).  `mapping` and `config` are Go
string-keyed maps, modelled as association lists (`config` keeps only the
string-valued entries, the only ones `GetProject` reads). -/
structure Target where
  name : String
  type : String
  mapping : List (String × String)
  secrets : SecretsFilter
  config : List (String × String)
deriving DecidableEq, Repr

/-- `Target.GetProject` (internal/model/target.go): first string config entry
among the known project-identifier keys, else `""`. -/
def Target.GetProject (t : Target) : String :=
  match t.config.lookup "project" with
  | some p => p
  | none =>
    match t.config.lookup "deployment" with
    | some d => d
    | none =>
      match t.config.lookup "service_id" with
      | some s => s
      | none =>
        match t.config.lookup "project_ref" with
        | some r => r
        | none =>
          match t.config.lookup "app_name" with
          | some a => a
          | none =>
            match t.config.lookup "account_id" with
            | some a => a
            | none => ""

/-- `Target.MapToRemote` (internal/model/target.go): all mapping keys whose
value equals the local environment. -/
def Target.MapToRemote (t : Target) (localEnv : String) : List String :=
  (t.mapping.filter (fun kv => kv.2 = localEnv)).map Prod.fst

/-- `Target.MapToLocal` (internal/model/target.go): exact mapping entry, else
the `"default"` entry, else `""`. -/
def Target.MapToLocal (t : Target) (remoteEnv : String) : String :=
  match t.mapping.lookup remoteEnv with
  | some localEnv => localEnv
  | none =>
    match t.mapping.lookup "default" with
    | some localEnv => localEnv
    | none => ""

/-- `provider.ProviderInfo` (pkg/provider/provider.go): static per-platform
metadata.  The effectful `Factory` and the display fields are not modelled;
`createProvider`, their only consumer here, is abstracted by its outcome. -/
structure ProviderInfo where
  writeOnly : Bool
  sdkAuth : Bool
  envVar : String
deriving DecidableEq, Repr

/-- The provider registry `provider.Get` (pkg/provider/registry.go), as an
explicit lookup (`none` = unregistered type). -/
def Registry := String → Option ProviderInfo

/-- `writeOnly := provInfo.WriteOnly` after `provInfo, _ := provider.Get(typ)`:
Go yields the zero `ProviderInfo` (so `false`) when the type is unregistered. -/
def writeOnlyOf (reg : Registry) (typ : String) : Bool :=
  match reg typ with
  | some info => info.writeOnly
  | none => false

/-- A provider handle (`provider.SyncTarget`), as pure oracles for its two
store operations used by the engine: `list` (read all secrets of a remote
environment) and `set` (write one secret; `none` = success, `some e` =
the error message returned by the platform). -/
structure Store where
  list : String → Except String (List SecretValue)
  set : String → String → String → Option String

/-- One store mutation performed by the engine.  `provider.Writer` also has a
`Delete` operation; the constructor exists so that "the engine never deletes"
is a statement about traces, not about the type. -/
inductive StoreCall where
  | set (name value environment : String)
  | delete (name environment : String)
deriving DecidableEq, Repr

/-- `source.Source`: `GetAll(names)` returns a map; modelled as the lookup
function of the returned map. -/
structure Source where
  getAll : List String → String → Option String

/-- `sync.SyncOptions` (engine.go).  The `Progress` callback only emits UI
events and is not modelled. -/
structure SyncOptions where
  dryRun : Bool
  environment : String
deriving DecidableEq, Repr

/-- `sync.SyncResult` (engine.go). -/
structure SyncResult where
  targetName : String
  environment : String
  added : Nat
  changed : Nat
  unchanged : Nat
  unknown : Nat
  failed : Nat
  errors : List String
deriving DecidableEq, Repr

/-- `matchesAny` (internal/sync/filter.go): does `name` glob-match any of
`patterns`?  (`filepath.Match` errors are discarded, as in the source.) -/
def matchesAny (globMatch : String → String → Bool) (name : String)
    (patterns : List String) : Bool :=
  patterns.any (fun pattern => globMatch pattern name)

/-- `ShouldSyncSecret` (internal/sync/filter.go). -/
def ShouldSyncSecret (globMatch : String → String → Bool) (secretName : String)
    (target : Target) : Bool :=
  if target.secrets.Include.length > 0 ∧
      ¬ matchesAny globMatch secretName target.secrets.Include then
    false
  else if matchesAny globMatch secretName target.secrets.Exclude then
    false
  else
    true

/-- `FilterSecretNames` (internal/sync/filter.go). -/
def FilterSecretNames (globMatch : String → String → Bool) (names : List String)
    (target : Target) : List String :=
  names.filter (fun name => ShouldSyncSecret globMatch name target)

/-- One Go map insertion `remoteMap[s.Name] = s.Value`. -/
def remoteInsert (m : String → Option String) (s : SecretValue) :
    String → Option String :=
  fun n => if n = s.name then some s.value else m n

/-- The `remoteMap` construction in `Engine.Preview`: successive Go map
insertion, later list entries overwriting earlier ones. -/
def buildRemoteMap (secrets : List SecretValue) : String → Option String :=
  secrets.foldl remoteInsert (fun _ => none)

/-- The body of `Engine.Preview`'s diff loop for one secret name:
`none` when the name is skipped (no local value), `some` the emitted
`SecretDiff` otherwise. -/
def previewEntry (writeOnly : Bool) (sourceValues remoteMap : String → Option String)
    (remoteEnv name : String) : Option SecretDiff :=
  let localOpt := sourceValues name
  let remoteOpt := remoteMap name
  let localValue := localOpt.getD ""
  let remoteValue := remoteOpt.getD ""
  if localOpt.isNone ∨ localValue = "" then
    none
  else
    let diffType :=
      if writeOnly ∧ remoteOpt.isSome then DiffType.unknown
      else if remoteOpt.isNone then DiffType.add
      else if localValue ≠ remoteValue then DiffType.change
      else DiffType.unchanged
    some { name := name, type := diffType, oldValue := remoteValue,
           newValue := localValue, environment := remoteEnv, sensitive := false }

/-- `Engine.Preview` (internal/sync/engine.go).  `prov` is the outcome of
`createProvider target`; its error is returned unwrapped, a `List` failure is
wrapped with the target name. -/
def Engine.Preview (globMatch : String → String → Bool) (reg : Registry)
    (prov : Except String Store) (secretNames : List String) (src : Source)
    (target : Target) (remoteEnv : String) : Except String TargetDiff :=
  match prov with
  | .error e => .error e
  | .ok store =>
    let filteredNames := FilterSecretNames globMatch secretNames target
    let sourceValues := src.getAll filteredNames
    match store.list remoteEnv with
    | .error e =>
      .error ("failed to list secrets from " ++ target.name ++ ": " ++ e)
    | .ok remoteSecrets =>
      let writeOnly := writeOnlyOf reg target.type
      let remoteMap := buildRemoteMap remoteSecrets
      let diffs := filteredNames.filterMap
        (previewEntry writeOnly sourceValues remoteMap remoteEnv)
      .ok { targetName := target.name, targetType := target.type,
            project := target.GetProject, diffs := diffs }

/-- One iteration of the dry-run tally switch in `Engine.Sync`. -/
def dryStep (r : SyncResult) (d : SecretDiff) : SyncResult :=
  match d.type with
  | .add => { r with added := r.added + 1 }
  | .change => { r with changed := r.changed + 1 }
  | .unchanged => { r with unchanged := r.unchanged + 1 }
  | .unknown => { r with unknown := r.unknown + 1 }
  | .remove => r

/-- The dry-run branch of `Engine.Sync`: tally the diff classifications into
the result's counters without writing. -/
def dryRunTally (diffs : List SecretDiff) (result : SyncResult) : SyncResult :=
  diffs.foldl dryStep result

/-- The apply loop of `Engine.Sync` over the diff entries, also returning the
trace of store mutations.  Unchanged entries are counted and skipped; other
entries invoke `set` when classified Add/Change/Unknown; a failing write
increments `failed` and appends the name-wrapped error; a successful write
increments the counter matching the classification (Go's `default` branch
counts as `changed`). -/
def applyDiffs (store : Store) (remoteEnv : String) :
    List SecretDiff → SyncResult → SyncResult × List StoreCall
  | [], result => (result, [])
  | d :: rest, result =>
    if d.type = DiffType.unchanged then
      applyDiffs store remoteEnv rest
        { result with unchanged := result.unchanged + 1 }
    else
      let step : Option String × List StoreCall :=
        match d.type with
        | .add | .change | .unknown =>
          (store.set d.name d.newValue remoteEnv,
           [StoreCall.set d.name d.newValue remoteEnv])
        | _ => (none, [])
      match step with
      | (some syncErr, calls) =>
        let result := { result with
          failed := result.failed + 1,
          errors := result.errors ++ [d.name ++ ": " ++ syncErr] }
        let out := applyDiffs store remoteEnv rest result
        (out.1, calls ++ out.2)
      | (none, calls) =>
        let result :=
          match d.type with
          | .add => { result with added := result.added + 1 }
          | .unknown => { result with unknown := result.unknown + 1 }
          | _ => { result with changed := result.changed + 1 }
        let out := applyDiffs store remoteEnv rest result
        (out.1, calls ++ out.2)

/-- `Engine.Sync` (internal/sync/engine.go).  Returns the result together with
the trace of store mutations performed.  The Go `prov.(provider.Writer)` type
assertion always succeeds (`createProvider` returns a `provider.SyncTarget`,
which embeds `provider.Writer`), so it has no failing branch here. -/
def Engine.Sync (globMatch : String → String → Bool) (reg : Registry)
    (prov : Except String Store) (secretNames : List String) (src : Source)
    (target : Target) (remoteEnv : String) (opts : SyncOptions) :
    Except String (SyncResult × List StoreCall) :=
  let result : SyncResult :=
    { targetName := target.name, environment := remoteEnv,
      added := 0, changed := 0, unchanged := 0, unknown := 0, failed := 0,
      errors := [] }
  match Engine.Preview globMatch reg prov secretNames src target remoteEnv with
  | .error e => .error e
  | .ok diff =>
    if opts.dryRun then
      .ok (dryRunTally diff.diffs result, [])
    else
      match prov with
      | .error e => .error e
      | .ok store => .ok (applyDiffs store remoteEnv diff.diffs result)

/-! ### Helper lemmas about the diff classification -/

/-- The classification decision rule, as a function of the write-only flag, the
(non-empty) local value, and the remote lookup result. -/
def classify (writeOnly : Bool) (localValue : String) (remoteOpt : Option String) :
    DiffType :=
  if writeOnly ∧ remoteOpt.isSome then DiffType.unknown
  else if remoteOpt.isNone then DiffType.add
  else if localValue ≠ remoteOpt.getD "" then DiffType.change
  else DiffType.unchanged

theorem previewEntry_eq_none (w : Bool) (sv rm : String → Option String)
    (env n : String) (h : sv n = none ∨ sv n = some "") :
    previewEntry w sv rm env n = none := by
  rcases h with h | h <;> simp [previewEntry, h]

theorem previewEntry_eq_some (w : Bool) (sv rm : String → Option String)
    (env n v : String) (hv : sv n = some v) (hne : v ≠ "") :
    previewEntry w sv rm env n =
      some { name := n, type := classify w v (rm n), oldValue := (rm n).getD "",
             newValue := v, environment := env, sensitive := false } := by
  simp [previewEntry, classify, hv, hne]

theorem previewEntry_some_inv (w : Bool) (sv rm : String → Option String)
    (env n : String) (e : SecretDiff) (h : previewEntry w sv rm env n = some e) :
    e.name = n ∧ sv n = some e.newValue ∧ e.newValue ≠ "" ∧
      e.type = classify w e.newValue (rm n) ∧ e.oldValue = (rm n).getD "" ∧
      e.environment = env := by
  rcases hv : sv n with _ | v
  · rw [previewEntry_eq_none w sv rm env n (Or.inl hv)] at h
    cases h
  · by_cases hne : v = ""
    · rw [previewEntry_eq_none w sv rm env n (Or.inr (hne ▸ hv))] at h
      cases h
    · rw [previewEntry_eq_some w sv rm env n v hv hne] at h
      cases h
      exact ⟨rfl, rfl, hne, rfl, rfl, rfl⟩

theorem Preview_ok_eq (g : String → String → Bool) (reg : Registry)
    (store : Store) (names : List String) (src : Source) (t : Target)
    (env : String) (rs : List SecretValue) (hl : store.list env = .ok rs) :
    Engine.Preview g reg (.ok store) names src t env =
      .ok { targetName := t.name, targetType := t.type, project := t.GetProject,
            diffs := (FilterSecretNames g names t).filterMap
              (previewEntry (writeOnlyOf reg t.type)
                (src.getAll (FilterSecretNames g names t))
                (buildRemoteMap rs) env) } := by
  simp [Engine.Preview, hl]

theorem Preview_ok_inv (g : String → String → Bool) (reg : Registry)
    (prov : Except String Store) (names : List String) (src : Source)
    (t : Target) (env : String) (d : TargetDiff)
    (h : Engine.Preview g reg prov names src t env = .ok d) :
    ∃ store rs, prov = .ok store ∧ store.list env = .ok rs ∧
      d = { targetName := t.name, targetType := t.type, project := t.GetProject,
            diffs := (FilterSecretNames g names t).filterMap
              (previewEntry (writeOnlyOf reg t.type)
                (src.getAll (FilterSecretNames g names t))
                (buildRemoteMap rs) env) } := by
  rcases prov with e | store
  · simp [Engine.Preview] at h
  · rcases hl : store.list env with e | rs
    · simp [Engine.Preview, hl] at h
    · refine ⟨store, rs, rfl, hl, ?_⟩
      rw [Preview_ok_eq g reg store names src t env rs hl] at h
      cases h
      rfl

/-! ### Helper lemmas about the apply loop -/

/-- Does the apply loop attempt a write for this entry?  (Exactly the
`case DiffAdd, DiffChange, DiffUnknown` arm of `Engine.Sync`.) -/
def writeAttempted (d : SecretDiff) : Bool :=
  match d.type with
  | .add | .change | .unknown => true
  | _ => false

/-- Does the store's `set` succeed for this entry? -/
def setSucceeds (store : Store) (env : String) (d : SecretDiff) : Bool :=
  (store.set d.name d.newValue env).isNone

/-- The apply loop attempts a write for this entry and the write errors. -/
def writeFailed (store : Store) (env : String) (d : SecretDiff) : Bool :=
  writeAttempted d && (store.set d.name d.newValue env).isSome

/-- The name-wrapped error message recorded for a failing entry
(`fmt.Errorf("%s: %w", d.Name, syncErr)`). -/
def wrapErr (store : Store) (env : String) (d : SecretDiff) : String :=
  d.name ++ ": " ++ (store.set d.name d.newValue env).getD ""

/-- The store call emitted for a written entry. -/
def mkSetCall (env : String) (d : SecretDiff) : StoreCall :=
  .set d.name d.newValue env

/-- Did a store call return an error? -/
def callFailed (store : Store) (c : StoreCall) : Bool :=
  match c with
  | .set n v en => (store.set n v en).isSome
  | .delete _ _ => false

/-- Successfully written Add entry. -/
def addApplied (store : Store) (env : String) (d : SecretDiff) : Bool :=
  decide (d.type = DiffType.add) && setSucceeds store env d

/-- Entry counted under `Changed`: a successfully written Change entry (or a
Remove entry, which Go's `default:` arm would also count here — `Preview`
never emits one). -/
def changeApplied (store : Store) (env : String) (d : SecretDiff) : Bool :=
  (decide (d.type = DiffType.change) && setSucceeds store env d) ||
    decide (d.type = DiffType.remove)

/-- Successfully written Unknown entry. -/
def unknownApplied (store : Store) (env : String) (d : SecretDiff) : Bool :=
  decide (d.type = DiffType.unknown) && setSucceeds store env d

/-- Number of entries of a given classification. -/
def countType (ty : DiffType) (ds : List SecretDiff) : Nat :=
  (ds.filter (fun d => d.type = ty)).length

/-- Exact description of the apply loop: final counters, error list and store
call trace, as functions of the diff list. -/
theorem applyDiffs_eq (store : Store) (env : String) (ds : List SecretDiff)
    (acc : SyncResult) :
    applyDiffs store env ds acc =
      ({ targetName := acc.targetName, environment := acc.environment,
         added := acc.added + (ds.filter (addApplied store env)).length,
         changed := acc.changed + (ds.filter (changeApplied store env)).length,
         unchanged := acc.unchanged + countType DiffType.unchanged ds,
         unknown := acc.unknown + (ds.filter (unknownApplied store env)).length,
         failed := acc.failed + (ds.filter (writeFailed store env)).length,
         errors := acc.errors ++ (ds.filter (writeFailed store env)).map (wrapErr store env) },
       (ds.filter writeAttempted).map (mkSetCall env)) := by
  induction ds generalizing acc with
  | nil => simp [applyDiffs, countType]
  | cons d rest ih =>
    by_cases hu : d.type = DiffType.unchanged
    · simp [applyDiffs, hu, ih, countType, addApplied, changeApplied,
        unknownApplied, writeFailed, writeAttempted, setSucceeds,
        Nat.add_assoc, Nat.add_comm, Nat.add_left_comm]
    · rcases hty : d.type with _ | _ | _ | _ | _ <;> try exact absurd hty hu
      all_goals
        rcases hset : store.set d.name d.newValue env with _ | e <;>
          simp [applyDiffs, hty, hset, ih, countType, addApplied, changeApplied,
            unknownApplied, writeFailed, writeAttempted, setSucceeds, wrapErr,
            mkSetCall, Nat.add_assoc, Nat.add_comm, Nat.add_left_comm,
            List.append_assoc]

/-- Exact description of the dry-run tally. -/
theorem dryRunTally_eq (ds : List SecretDiff) (acc : SyncResult) :
    dryRunTally ds acc =
      { targetName := acc.targetName, environment := acc.environment,
        added := acc.added + countType DiffType.add ds,
        changed := acc.changed + countType DiffType.change ds,
        unchanged := acc.unchanged + countType DiffType.unchanged ds,
        unknown := acc.unknown + countType DiffType.unknown ds,
        failed := acc.failed, errors := acc.errors } := by
  have hcons : ∀ d rest acc, dryRunTally (d :: rest) acc = dryRunTally rest (dryStep acc d) :=
    fun _ _ _ => rfl
  induction ds generalizing acc with
  | nil => simp [dryRunTally, countType]
  | cons d rest ih =>
    rw [hcons, ih]
    rcases hty : d.type with _ | _ | _ | _ | _ <;>
      simp [dryStep, hty, countType, Nat.add_assoc, Nat.add_comm,
        Nat.add_left_comm]

/-- The classification rule never yields a Remove. -/
theorem classify_ne_remove (w : Bool) (v : String) (r : Option String) :
    classify w v r ≠ DiffType.remove := by
  unfold classify
  split
  · simp
  · split
    · simp
    · split <;> simp

/-- `Engine.Preview` never emits a Remove entry. -/
theorem preview_no_remove (g : String → String → Bool) (reg : Registry)
    (prov : Except String Store) (names : List String) (src : Source)
    (t : Target) (env : String) (d : TargetDiff)
    (hp : Engine.Preview g reg prov names src t env = .ok d) :
    ∀ e ∈ d.diffs, e.type ≠ DiffType.remove := by
  obtain ⟨store, rs, -, -, hd⟩ := Preview_ok_inv g reg prov names src t env d hp
  subst hd
  intro e he
  simp only [List.mem_filterMap] at he
  obtain ⟨n, -, hpe⟩ := he
  obtain ⟨-, -, -, hty, -, -⟩ := previewEntry_some_inv _ _ _ _ _ _ hpe
  rw [hty]
  exact classify_ne_remove _ _ _

/-- A non-dry-run `Engine.Sync` on a constructible provider whose `Preview`
succeeded is exactly the apply loop over the previewed diff. -/
theorem Sync_nondry_applyDiffs (g : String → String → Bool) (reg : Registry)
    (store : Store) (names : List String) (src : Source) (t : Target)
    (env : String) (opts : SyncOptions) (d : TargetDiff)
    (hdry : opts.dryRun = false)
    (hp : Engine.Preview g reg (.ok store) names src t env = .ok d) :
    Engine.Sync g reg (.ok store) names src t env opts =
      .ok (applyDiffs store env d.diffs
        { targetName := t.name, environment := env, added := 0, changed := 0,
          unchanged := 0, unknown := 0, failed := 0, errors := [] }) := by
  simp [Engine.Sync, hp, hdry]

theorem writeAttempted_iff (d : SecretDiff) :
    writeAttempted d = true ↔
      d.type = DiffType.add ∨ d.type = DiffType.change ∨ d.type = DiffType.unknown := by
  unfold writeAttempted
  rcases hty : d.type with _ | _ | _ | _ | _ <;> simp [hty]

/-- On a remove-free diff list the five counters partition the entries. -/
theorem counts_partition (store : Store) (env : String) (ds : List SecretDiff)
    (hnr : ∀ e ∈ ds, e.type ≠ DiffType.remove) :
    (ds.filter (addApplied store env)).length +
      (ds.filter (changeApplied store env)).length +
      countType DiffType.unchanged ds +
      (ds.filter (unknownApplied store env)).length +
      (ds.filter (writeFailed store env)).length = ds.length := by
  induction ds with
  | nil => simp [countType]
  | cons d rest ih =>
    have hrest := ih (fun e he => hnr e (List.mem_cons_of_mem _ he))
    have hd := hnr d (List.mem_cons_self _ _)
    rcases hty : d.type with _ | _ | _ | _ | _
    case remove => exact absurd hty hd
    all_goals
      rcases hset : store.set d.name d.newValue env with _ | err <;>
        (simp [countType, List.filter_cons, addApplied, changeApplied,
          unknownApplied, writeFailed, writeAttempted, setSucceeds, hty, hset]
          at hrest ⊢; omega)

/-! ### Helper lemmas for the idempotence analysis -/

/-- The secret name/value pair written by a store call (the post-state of a
successful call sequence is the original remote listing extended by these). -/
def pushedSecret (c : StoreCall) : Option SecretValue :=
  match c with
  | .set n v _ => some { name := n, value := v }
  | .delete _ _ => none

theorem foldl_remoteInsert_no_hit (l : List SecretValue)
    (base : String → Option String) (n : String) (h : ∀ s ∈ l, s.name ≠ n) :
    l.foldl remoteInsert base n = base n := by
  induction l generalizing base with
  | nil => rfl
  | cons s tl ih =>
    have hs := h s (List.mem_cons_self _ _)
    rw [List.foldl_cons, ih _ (fun x hx => h x (List.mem_cons_of_mem _ hx))]
    simp [remoteInsert, Ne.symm hs]

theorem foldl_remoteInsert_hit : ∀ (l : List SecretValue)
    (base : String → Option String) (n v : String),
    (∃ s ∈ l, s.name = n) → (∀ s ∈ l, s.name = n → s.value = v) →
    l.foldl remoteInsert base n = some v := by
  intro l
  induction l with
  | nil =>
    intro base n v hex _
    obtain ⟨s, hs, -⟩ := hex
    exact absurd hs (List.not_mem_nil s)
  | cons s tl ih =>
    intro base n v hex hall
    rw [List.foldl_cons]
    by_cases htl : ∃ x ∈ tl, x.name = n
    · exact ih _ n v htl (fun x hx => hall x (List.mem_cons_of_mem _ hx))
    · have hsn : s.name = n := by
        obtain ⟨x, hx, hxn⟩ := hex
        rcases List.mem_cons.mp hx with hxs | hxtl
        · rw [hxs] at hxn
          exact hxn
        · exact absurd ⟨x, hxtl, hxn⟩ htl
      have hnotl : ∀ x ∈ tl, x.name ≠ n := fun x hx hxn => htl ⟨x, hx, hxn⟩
      rw [foldl_remoteInsert_no_hit tl _ n hnotl]
      have hv := hall s (List.mem_cons_self _ _) hsn
      simp [remoteInsert, hsn, hv]

theorem buildRemoteMap_append (a b : List SecretValue) (n : String) :
    buildRemoteMap (a ++ b) n = b.foldl remoteInsert (buildRemoteMap a) n := by
  unfold buildRemoteMap
  rw [List.foldl_append]

theorem filterMap_pushed_mkSetCall (env : String) (l : List SecretDiff) :
    (l.map (mkSetCall env)).filterMap pushedSecret =
      l.map (fun e => SecretValue.mk e.name e.newValue) := by
  induction l with
  | nil => rfl
  | cons e tl ih => simp [mkSetCall, pushedSecret, ih]

/-- The names emitted by the preview loop depend only on the source values,
not on the remote map or the write-only flag. -/
theorem previewEntry_names (w : Bool) (sv rm : String → Option String)
    (env : String) (l : List String) :
    (l.filterMap (previewEntry w sv rm env)).map SecretDiff.name =
      l.filter (fun n => (sv n).isSome && decide ((sv n).getD "" ≠ "")) := by
  induction l with
  | nil => rfl
  | cons n tl ih =>
    rcases hv : sv n with _ | v
    · rw [List.filterMap_cons, previewEntry_eq_none w sv rm env n (Or.inl hv)]
      simp [hv, ih]
    · by_cases hne : v = ""
      · rw [List.filterMap_cons, previewEntry_eq_none w sv rm env n (Or.inr (hne ▸ hv))]
        simp [hv, hne, ih]
      · rw [List.filterMap_cons, previewEntry_eq_some w sv rm env n v hv hne]
        simp [hv, hne, ih]

theorem classify_some_self (w : Bool) (v : String) :
    classify w v (some v) = if w then DiffType.unknown else DiffType.unchanged := by
  cases w <;> simp [classify]

/-! ### Concrete fixtures used by witness theorems -/

/-- A concrete glob matcher for witnesses: `"*"` matches everything, any other
pattern matches exactly itself.  (The filter logic is parametric in the
matcher, so witnesses may pick any instance.) -/
def gW : String → String → Bool := fun pattern name => pattern == name || pattern == "*"

/-- A concrete registry: one readable platform, one write-only platform. -/
def regW : Registry := fun typ =>
  if typ = "vercel" then some { writeOnly := false, sdkAuth := false, envVar := "VERCEL_TOKEN" }
  else if typ = "github-actions" then some { writeOnly := true, sdkAuth := false, envVar := "GITHUB_TOKEN" }
  else none

/-- A concrete source: `API_KEY ↦ "v1"`, `EMPTY_KEY ↦ ""`, all else absent. -/
def srcW : Source :=
  ⟨fun _ name =>
    if name = "API_KEY" then some "v1"
    else if name = "EMPTY_KEY" then some "" else none⟩

/-- A concrete readable target. -/
def tW : Target :=
  { name := "demo", type := "vercel",
    mapping := [("production", "live"), ("preview", "test"), ("default", "test")],
    secrets := { Include := [], Exclude := [] },
    config := [("project", "demo-project")] }

/-- A concrete write-only target. -/
def tWo : Target :=
  { name := "ci", type := "github-actions",
    mapping := [("production", "live")],
    secrets := { Include := [], Exclude := [] }, config := [] }

/-- A concrete target with include and exclude filters. -/
def tFil : Target :=
  { name := "filtered", type := "vercel", mapping := [],
    secrets := { Include := ["API_KEY", "*"], Exclude := ["DB_PASSWORD"] },
    config := [] }

def namesW : List String := ["API_KEY", "EMPTY_KEY", "MISSING_KEY"]

/-- Remote holds `API_KEY ↦ "v0"`; all writes succeed. -/
def storeW : Store := ⟨fun _ => .ok [{ name := "API_KEY", value := "v0" }], fun _ _ _ => none⟩

/-- Remote holds `API_KEY ↦ "v1"` (equal to the local value); writes succeed. -/
def storeEqW : Store := ⟨fun _ => .ok [{ name := "API_KEY", value := "v1" }], fun _ _ _ => none⟩

/-- A store whose `list` fails. -/
def storeFailListW : Store := ⟨fun _ => .error "boom", fun _ _ _ => none⟩

/-- The diff `Engine.Preview` produces from `storeW`/`srcW`/`tW`. -/
def dW : TargetDiff :=
  { targetName := "demo", targetType := "vercel", project := "demo-project",
    diffs := [{ name := "API_KEY", type := .change, oldValue := "v0",
                newValue := "v1", environment := "production", sensitive := false }] }

/-- The diff `Engine.Preview` produces from `storeEqW`/`srcW`/`tWo`: write-only
platform, remote entry present, hence Unknown despite equal values. -/
def dWo : TargetDiff :=
  { targetName := "ci", targetType := "github-actions", project := "",
    diffs := [{ name := "API_KEY", type := .unknown, oldValue := "v1",
                newValue := "v1", environment := "production", sensitive := false }] }

def optsW : SyncOptions := { dryRun := false, environment := "live" }

def optsDryW : SyncOptions := { dryRun := true, environment := "live" }

/-- Remote is empty; writing `API_KEY` fails, any other write succeeds. -/
def storeFailSetW : Store :=
  ⟨fun _ => .ok [],
   fun name _ _ => if name = "API_KEY" then some "rate limited" else none⟩

/-- The diff `Engine.Preview` produces from `storeFailSetW`/`srcW`/`tW`. -/
def dAddW : TargetDiff :=
  { targetName := "demo", targetType := "vercel", project := "demo-project",
    diffs := [{ name := "API_KEY", type := .add, oldValue := "", newValue := "v1",
                environment := "production", sensitive := false }] }

/-- The result of the successful non-dry-run sync of `dW` against `storeW`. -/
def rW : SyncResult :=
  { targetName := "demo", environment := "production", added := 0, changed := 1,
    unchanged := 0, unknown := 0, failed := 0, errors := [] }

/-- The result of the failing non-dry-run sync of `dAddW` against
`storeFailSetW`. -/
def rFailW : SyncResult :=
  { targetName := "demo", environment := "production", added := 0, changed := 0,
    unchanged := 0, unknown := 0, failed := 1, errors := ["API_KEY: rate limited"] }

/-- Remote listing after the successful sync against `storeW`: the original
entry plus the written one (later entries win in the remote map). -/
def storeW2 : Store :=
  ⟨fun _ => .ok [{ name := "API_KEY", value := "v0" },
                 { name := "API_KEY", value := "v1" }],
   fun _ _ _ => none⟩

/-- The diff of the second preview after the successful sync: all Unchanged. -/
def dW2 : TargetDiff :=
  { targetName := "demo", targetType := "vercel", project := "demo-project",
    diffs := [{ name := "API_KEY", type := .unchanged, oldValue := "v1",
                newValue := "v1", environment := "production", sensitive := false }] }

/-! ### Claim theorems -/

/-- C1: No-delete invariant — a secret name whose local value is absent or
empty never yields a `DiffEntry` in the `TargetDiff` returned by
`Engine.Preview`, whatever the remote store holds for it. -/
theorem preview_skips_absent_or_empty_locals
    (g : String → String → Bool) (reg : Registry) (prov : Except String Store)
    (names : List String) (src : Source) (t : Target) (env : String)
    (d : TargetDiff) (secret : String)
    (hp : Engine.Preview g reg prov names src t env = .ok d)
    (hl : src.getAll (FilterSecretNames g names t) secret = none ∨
          src.getAll (FilterSecretNames g names t) secret = some "") :
    ∀ e ∈ d.diffs, e.name ≠ secret := by
  obtain ⟨store, rs, _, hlst, hd⟩ := Preview_ok_inv g reg prov names src t env d hp
  subst hd
  intro e he hne
  simp only [List.mem_filterMap] at he
  obtain ⟨n, _, hpe⟩ := he
  obtain ⟨hname, hsv, hnemp, -⟩ := previewEntry_some_inv _ _ _ _ _ _ hpe
  have hn : n = secret := hname.symm.trans hne
  subst hn
  rcases hl with hl | hl
  · rw [hl] at hsv
    cases hsv
  · rw [hl] at hsv
    injection hsv with hval
    exact hnemp hval.symm

theorem preview_skips_absent_or_empty_locals_witness :
    ({ name := "API_KEY", type := DiffType.change, oldValue := "v0", newValue := "v1",
       environment := "production", sensitive := false } : SecretDiff).name ≠ "EMPTY_KEY" :=
  preview_skips_absent_or_empty_locals gW regW (.ok storeW) namesW srcW tW
    "production" dW "EMPTY_KEY" rfl (Or.inr rfl) _ (by simp [dW])

/-- C2: Classification decision rule — each filtered name with a non-empty
local value yields a `DiffEntry` classified by `classify` (Unknown when the
platform is write-only and a remote entry exists, even if equal; else Add when
no remote entry; else Change when values differ; else Unchanged), and every
emitted entry's type follows that rule. -/
theorem preview_classification_rule
    (g : String → String → Bool) (reg : Registry) (store : Store)
    (names : List String) (src : Source) (t : Target) (env : String)
    (rs : List SecretValue) (d : TargetDiff)
    (hlist : store.list env = .ok rs)
    (hp : Engine.Preview g reg (.ok store) names src t env = .ok d) :
    (∀ name ∈ FilterSecretNames g names t, ∀ v,
        src.getAll (FilterSecretNames g names t) name = some v → v ≠ "" →
        ({ name := name,
           type := classify (writeOnlyOf reg t.type) v (buildRemoteMap rs name),
           oldValue := (buildRemoteMap rs name).getD "", newValue := v,
           environment := env, sensitive := false } : SecretDiff) ∈ d.diffs) ∧
    (∀ e ∈ d.diffs,
        e.type = classify (writeOnlyOf reg t.type) e.newValue (buildRemoteMap rs e.name)) := by
  have hd := (Preview_ok_eq g reg store names src t env rs hlist).symm.trans hp
  injection hd with hd
  subst hd
  constructor
  · intro name hmem v hv hne
    simp only [List.mem_filterMap]
    exact ⟨name, hmem, previewEntry_eq_some _ _ _ _ _ _ hv hne⟩
  · intro e he
    simp only [List.mem_filterMap] at he
    obtain ⟨n, _, hpe⟩ := he
    obtain ⟨hname, -, -, hty, -, -⟩ := previewEntry_some_inv _ _ _ _ _ _ hpe
    rw [hname, hty]

theorem preview_classification_rule_witness :
    ({ name := "API_KEY", type := DiffType.unknown, oldValue := "v1", newValue := "v1",
       environment := "production", sensitive := false } : SecretDiff) ∈ dWo.diffs :=
  (preview_classification_rule gW regW storeEqW namesW srcW tWo "production"
      [{ name := "API_KEY", value := "v1" }] dWo rfl rfl).1
    "API_KEY" (by decide) "v1" rfl (by decide)

/-- C6: Filter composition — `ShouldSyncSecret` accepts a name iff the include
list is empty or matched, and no exclude pattern matches; empty filters accept
everything; an exclude match rejects even an include-matched name. -/
theorem shouldSyncSecret_filter_composition (g : String → String → Bool)
    (name : String) (t : Target) :
    (ShouldSyncSecret g name t = true ↔
      ((t.secrets.Include = [] ∨ ∃ p ∈ t.secrets.Include, g p name = true) ∧
        ∀ p ∈ t.secrets.Exclude, g p name = false)) ∧
    (t.secrets.Include = [] → t.secrets.Exclude = [] →
      ShouldSyncSecret g name t = true) ∧
    (∀ p ∈ t.secrets.Exclude, g p name = true → ShouldSyncSecret g name t = false) := by
  have key : ShouldSyncSecret g name t =
      ((t.secrets.Include.isEmpty || matchesAny g name t.secrets.Include) &&
        !matchesAny g name t.secrets.Exclude) := by
    unfold ShouldSyncSecret
    rcases t.secrets.Include with _ | ⟨p, ps⟩
    · cases hE : matchesAny g name t.secrets.Exclude <;>
        simp [matchesAny]
    · cases hI : matchesAny g name (p :: ps) <;>
        cases hE : matchesAny g name t.secrets.Exclude <;>
        simp [hI, hE]
  refine ⟨?_, ?_, ?_⟩
  · rw [key]
    simp only [Bool.and_eq_true, Bool.or_eq_true, Bool.not_eq_true',
      List.isEmpty_iff, matchesAny, List.any_eq_true, List.any_eq_false,
      Bool.not_eq_true]
  · intro h1 h2
    rw [key, h1, h2]
    rfl
  · intro p hp hg
    rw [key]
    have hE : matchesAny g name t.secrets.Exclude = true := by
      simp only [matchesAny, List.any_eq_true]
      exact ⟨p, hp, hg⟩
    simp [hE]

theorem shouldSyncSecret_filter_composition_witness :
    ShouldSyncSecret gW "DB_PASSWORD" tFil = false ∧
    ShouldSyncSecret gW "ANY_NAME" tW = true :=
  ⟨(shouldSyncSecret_filter_composition gW "DB_PASSWORD" tFil).2.2
      "DB_PASSWORD" (by decide) (by decide),
   (shouldSyncSecret_filter_composition gW "ANY_NAME" tW).2.1 rfl rfl⟩

/-- C7: Preview error atomicity — a failed provider construction is returned
as-is and a failed remote `list` is returned wrapped with the target name; in
both cases `Engine.Preview` yields an error, never a partial diff. -/
theorem preview_error_atomicity (g : String → String → Bool) (reg : Registry)
    (names : List String) (src : Source) (t : Target) (env : String) :
    (∀ e, Engine.Preview g reg (.error e) names src t env = .error e) ∧
    (∀ store listErr, store.list env = .error listErr →
      Engine.Preview g reg (.ok store) names src t env =
        .error ("failed to list secrets from " ++ t.name ++ ": " ++ listErr)) := by
  constructor
  · intro e
    rfl
  · intro store listErr h
    simp [Engine.Preview, h]

theorem preview_error_atomicity_witness :
    Engine.Preview gW regW (.error "authentication failed for demo: no token")
        namesW srcW tW "production" =
      .error "authentication failed for demo: no token" ∧
    Engine.Preview gW regW (.ok storeFailListW) namesW srcW tW "production" =
      .error "failed to list secrets from demo: boom" :=
  ⟨(preview_error_atomicity gW regW namesW srcW tW "production").1 _,
   (preview_error_atomicity gW regW namesW srcW tW "production").2 storeFailListW "boom" rfl⟩

/-- C8: Environment mapper contract — `MapToRemote` returns exactly the mapping
keys whose value is the local environment; `MapToLocal` returns the exact
entry, else the `"default"` entry, else `""`; both degenerate to empty on an
empty mapping. -/
theorem target_environment_mapping (t : Target) (localEnv remoteEnv : String) :
    (∀ r, r ∈ t.MapToRemote localEnv ↔ (r, localEnv) ∈ t.mapping) ∧
    (∀ l, t.mapping.lookup remoteEnv = some l → t.MapToLocal remoteEnv = l) ∧
    (t.mapping.lookup remoteEnv = none →
      ∀ l, t.mapping.lookup "default" = some l → t.MapToLocal remoteEnv = l) ∧
    (t.mapping.lookup remoteEnv = none → t.mapping.lookup "default" = none →
      t.MapToLocal remoteEnv = "") ∧
    (t.mapping = [] → t.MapToRemote localEnv = [] ∧ t.MapToLocal remoteEnv = "") := by
  refine ⟨?_, ?_, ?_, ?_, ?_⟩
  · intro r
    unfold Target.MapToRemote
    constructor
    · intro h
      simp only [List.mem_map] at h
      obtain ⟨kv, hkv, hr⟩ := h
      rw [List.mem_filter] at hkv
      obtain ⟨hmem, heq⟩ := hkv
      have hkv2 : kv = (r, localEnv) := by
        obtain ⟨a, b⟩ := kv
        simp only [decide_eq_true_eq] at heq
        simp only at hr
        rw [hr, heq]
      rwa [hkv2] at hmem
    · intro h
      simp only [List.mem_map]
      exact ⟨(r, localEnv), List.mem_filter.mpr ⟨h, by simp⟩, rfl⟩
  · intro l h
    unfold Target.MapToLocal
    rw [h]
  · intro h l h2
    unfold Target.MapToLocal
    rw [h, h2]
  · intro h h2
    unfold Target.MapToLocal
    rw [h, h2]
  · intro h
    constructor
    · unfold Target.MapToRemote
      rw [h]
      rfl
    · unfold Target.MapToLocal
      rw [h]
      rfl

theorem target_environment_mapping_witness :
    "preview" ∈ tW.MapToRemote "test" ∧ tW.MapToLocal "staging" = "test" :=
  ⟨((target_environment_mapping tW "test" "staging").1 "preview").mpr (by decide),
   (target_environment_mapping tW "test" "staging").2.2.1 (by decide) "test" (by decide)⟩

/-- C3: Per-secret write-failure isolation — a non-dry-run `Engine.Sync` whose
preview succeeded always returns `.ok` (a write failure never aborts it); its
`failed` counter is the number of entries whose attempted write errored, its
error list is exactly their name-wrapped errors, in order, and `failed` also
equals the number of `set` calls in the trace that returned an error. -/
theorem sync_write_failure_isolation (g : String → String → Bool) (reg : Registry)
    (store : Store) (names : List String) (src : Source) (t : Target)
    (env : String) (opts : SyncOptions) (d : TargetDiff)
    (hdry : opts.dryRun = false)
    (hp : Engine.Preview g reg (.ok store) names src t env = .ok d) :
    Engine.Sync g reg (.ok store) names src t env opts =
      .ok ({ targetName := t.name, environment := env,
             added := (d.diffs.filter (addApplied store env)).length,
             changed := (d.diffs.filter (changeApplied store env)).length,
             unchanged := countType DiffType.unchanged d.diffs,
             unknown := (d.diffs.filter (unknownApplied store env)).length,
             failed := (d.diffs.filter (writeFailed store env)).length,
             errors := (d.diffs.filter (writeFailed store env)).map (wrapErr store env) },
           (d.diffs.filter writeAttempted).map (mkSetCall env)) ∧
    (d.diffs.filter (writeFailed store env)).length =
      (((d.diffs.filter writeAttempted).map (mkSetCall env)).filter
        (callFailed store)).length := by
  constructor
  · rw [Sync_nondry_applyDiffs g reg store names src t env opts d hdry hp,
      applyDiffs_eq]
    simp
  · rw [List.filter_map, List.length_map, List.filter_filter]
    congr 1
    refine List.filter_congr ?_
    intro a _
    simp [writeFailed, callFailed, mkSetCall, Bool.and_comm]

theorem sync_write_failure_isolation_witness :
    Engine.Sync gW regW (.ok storeFailSetW) namesW srcW tW "production" optsW =
      .ok (rFailW, [StoreCall.set "API_KEY" "v1" "production"]) :=
  (sync_write_failure_isolation gW regW storeFailSetW namesW srcW tW "production"
      optsW dAddW rfl rfl).1

/-- C4: Never-delete during apply — the trace of a non-dry-run `Engine.Sync`
is exactly one `set(name, newValue, remoteEnv)` per diff entry classified
Add/Change/Unknown (Unchanged entries emit nothing), every call stems from
such an entry, and no call is a delete. -/
theorem sync_never_deletes (g : String → String → Bool) (reg : Registry)
    (store : Store) (names : List String) (src : Source) (t : Target)
    (env : String) (opts : SyncOptions) (d : TargetDiff) (r : SyncResult)
    (calls : List StoreCall)
    (hdry : opts.dryRun = false)
    (hp : Engine.Preview g reg (.ok store) names src t env = .ok d)
    (hs : Engine.Sync g reg (.ok store) names src t env opts = .ok (r, calls)) :
    calls = (d.diffs.filter writeAttempted).map (mkSetCall env) ∧
    (∀ c ∈ calls, ∃ e ∈ d.diffs,
        (e.type = DiffType.add ∨ e.type = DiffType.change ∨ e.type = DiffType.unknown) ∧
        c = StoreCall.set e.name e.newValue env) ∧
    (∀ c ∈ calls, ∀ n en, c ≠ StoreCall.delete n en) := by
  rw [Sync_nondry_applyDiffs g reg store names src t env opts d hdry hp,
    applyDiffs_eq] at hs
  injection hs with hs
  have hcalls : calls = (d.diffs.filter writeAttempted).map (mkSetCall env) :=
    congrArg Prod.snd hs.symm
  subst hcalls
  refine ⟨rfl, ?_, ?_⟩
  · intro c hc
    simp only [List.mem_map] at hc
    obtain ⟨e, he, hce⟩ := hc
    rw [List.mem_filter] at he
    exact ⟨e, he.1, (writeAttempted_iff e).mp he.2, hce.symm⟩
  · intro c hc n en hdel
    simp only [List.mem_map] at hc
    obtain ⟨e, -, hce⟩ := hc
    rw [hdel] at hce
    cases hce

theorem sync_never_deletes_witness :
    [StoreCall.set "API_KEY" "v1" "production"] =
      (dW.diffs.filter writeAttempted).map (mkSetCall "production") ∧
    StoreCall.set "API_KEY" "v1" "production" ≠
      StoreCall.delete "API_KEY" "production" :=
  ⟨(sync_never_deletes gW regW storeW namesW srcW tW "production" optsW dW rW
      [StoreCall.set "API_KEY" "v1" "production"] rfl rfl rfl).1,
   (sync_never_deletes gW regW storeW namesW srcW tW "production" optsW dW rW
      [StoreCall.set "API_KEY" "v1" "production"] rfl rfl rfl).2.2
     (StoreCall.set "API_KEY" "v1" "production") (by simp) "API_KEY" "production"⟩

/-- C5: Dry-run behaviour — with `DryRun` set, `Engine.Sync` performs no store
call (empty trace), its counters are the tallies of the previewed diff's
classifications, and `failed` is zero with no errors. -/
theorem sync_dry_run_counts (g : String → String → Bool) (reg : Registry)
    (prov : Except String Store) (names : List String) (src : Source)
    (t : Target) (env : String) (opts : SyncOptions) (d : TargetDiff)
    (hdry : opts.dryRun = true)
    (hp : Engine.Preview g reg prov names src t env = .ok d) :
    Engine.Sync g reg prov names src t env opts =
      .ok ({ targetName := t.name, environment := env,
             added := countType DiffType.add d.diffs,
             changed := countType DiffType.change d.diffs,
             unchanged := countType DiffType.unchanged d.diffs,
             unknown := countType DiffType.unknown d.diffs,
             failed := 0, errors := [] }, []) := by
  simp [Engine.Sync, hp, hdry, dryRunTally_eq]

theorem sync_dry_run_counts_witness :
    Engine.Sync gW regW (.ok storeW) namesW srcW tW "production" optsDryW =
      .ok ({ targetName := "demo", environment := "production",
             added := 0, changed := 1, unchanged := 0, unknown := 0,
             failed := 0, errors := [] }, []) :=
  sync_dry_run_counts gW regW (.ok storeW) namesW srcW tW "production" optsDryW
    dW rfl rfl

/-- C10: Counter partition invariant — in a non-dry-run `Engine.Sync` over a
previewed diff, every entry increments exactly one of the five counters, so
their sum is the number of diff entries. -/
theorem sync_counter_partition (g : String → String → Bool) (reg : Registry)
    (store : Store) (names : List String) (src : Source) (t : Target)
    (env : String) (opts : SyncOptions) (d : TargetDiff) (r : SyncResult)
    (calls : List StoreCall)
    (hdry : opts.dryRun = false)
    (hp : Engine.Preview g reg (.ok store) names src t env = .ok d)
    (hs : Engine.Sync g reg (.ok store) names src t env opts = .ok (r, calls)) :
    r.added + r.changed + r.unchanged + r.unknown + r.failed = d.diffs.length := by
  have hnr := preview_no_remove g reg (.ok store) names src t env d hp
  rw [Sync_nondry_applyDiffs g reg store names src t env opts d hdry hp,
    applyDiffs_eq] at hs
  injection hs with hs
  have hr := congrArg Prod.fst hs
  simp only at hr
  rw [← hr]
  simpa using counts_partition store env d.diffs hnr

theorem sync_counter_partition_witness :
    rFailW.added + rFailW.changed + rFailW.unchanged + rFailW.unknown +
        rFailW.failed = dAddW.diffs.length :=
  sync_counter_partition gW regW storeFailSetW namesW srcW tW "production" optsW
    dAddW rFailW [StoreCall.set "API_KEY" "v1" "production"] rfl rfl rfl

/-- C9: Sync idempotence — after a non-dry-run `Engine.Sync` that completed
with zero failed writes, a second `Engine.Preview` against the updated remote
listing (the original listing extended by the written name/value pairs, in
order) emits, over the same secret names, only Unchanged entries on a
readback-capable platform and only Unknown entries on a write-only one. -/
theorem sync_idempotence (g : String → String → Bool) (reg : Registry)
    (store store₂ : Store) (names : List String) (src : Source) (t : Target)
    (env : String) (opts : SyncOptions) (d₁ d₂ : TargetDiff) (r : SyncResult)
    (calls : List StoreCall) (rs₁ : List SecretValue)
    (hdry : opts.dryRun = false)
    (hl₁ : store.list env = .ok rs₁)
    (hp₁ : Engine.Preview g reg (.ok store) names src t env = .ok d₁)
    (hs : Engine.Sync g reg (.ok store) names src t env opts = .ok (r, calls))
    (_hfail : r.failed = 0)
    (hl₂ : store₂.list env = .ok (rs₁ ++ calls.filterMap pushedSecret))
    (hp₂ : Engine.Preview g reg (.ok store₂) names src t env = .ok d₂) :
    (∀ e ∈ d₂.diffs,
        e.type = if writeOnlyOf reg t.type then DiffType.unknown
                 else DiffType.unchanged) ∧
    d₂.diffs.map SecretDiff.name = d₁.diffs.map SecretDiff.name := by
  have hd₁ := (Preview_ok_eq g reg store names src t env rs₁ hl₁).symm.trans hp₁
  injection hd₁ with hd₁
  have hdiffs₁ : d₁.diffs = (FilterSecretNames g names t).filterMap
      (previewEntry (writeOnlyOf reg t.type)
        (src.getAll (FilterSecretNames g names t)) (buildRemoteMap rs₁) env) := by
    rw [← hd₁]
  have hd₂ := (Preview_ok_eq g reg store₂ names src t env _ hl₂).symm.trans hp₂
  injection hd₂ with hd₂
  have hdiffs₂ : d₂.diffs = (FilterSecretNames g names t).filterMap
      (previewEntry (writeOnlyOf reg t.type)
        (src.getAll (FilterSecretNames g names t))
        (buildRemoteMap (rs₁ ++ calls.filterMap pushedSecret)) env) := by
    rw [← hd₂]
  have hsync := Sync_nondry_applyDiffs g reg store names src t env opts d₁ hdry hp₁
  rw [applyDiffs_eq] at hsync
  have hpair := hsync.symm.trans hs
  injection hpair with hpair
  injection hpair with hres hcalls
  have hpushed : calls.filterMap pushedSecret =
      (d₁.diffs.filter writeAttempted).map
        (fun e => SecretValue.mk e.name e.newValue) := by
    rw [← hcalls, filterMap_pushed_mkSetCall]
  have hval : ∀ n ∈ FilterSecretNames g names t, ∀ v,
      src.getAll (FilterSecretNames g names t) n = some v → v ≠ "" →
      buildRemoteMap (rs₁ ++ calls.filterMap pushedSecret) n = some v := by
    intro n hn v hv hne
    rw [buildRemoteMap_append, hpushed]
    have hentry : ∀ e, e ∈ d₁.diffs → e.name = n →
        e.newValue = v ∧
        e.type = classify (writeOnlyOf reg t.type) v (buildRemoteMap rs₁ n) := by
      intro e he hen
      rw [hdiffs₁] at he
      simp only [List.mem_filterMap] at he
      obtain ⟨m, hm, hpe⟩ := he
      obtain ⟨hname, hsvm, -, htype, -, -⟩ := previewEntry_some_inv _ _ _ _ _ _ hpe
      have hmn : m = n := by rw [← hname, hen]
      subst hmn
      rw [hv] at hsvm
      injection hsvm with hsvm
      exact ⟨hsvm.symm, by rw [htype, ← hsvm]⟩
    have hE := previewEntry_eq_some (writeOnlyOf reg t.type)
      (src.getAll (FilterSecretNames g names t)) (buildRemoteMap rs₁) env n v hv hne
    have hmemE : SecretDiff.mk n
        (classify (writeOnlyOf reg t.type) v (buildRemoteMap rs₁ n))
        ((buildRemoteMap rs₁ n).getD "") v env false ∈ d₁.diffs := by
      rw [hdiffs₁]
      exact List.mem_filterMap.mpr ⟨n, hn, hE⟩
    by_cases hEw : writeAttempted (SecretDiff.mk n
        (classify (writeOnlyOf reg t.type) v (buildRemoteMap rs₁ n))
        ((buildRemoteMap rs₁ n).getD "") v env false) = true
    · refine foldl_remoteInsert_hit _ _ n v
        ⟨_, List.mem_map.mpr ⟨_, List.mem_filter.mpr ⟨hmemE, hEw⟩, rfl⟩, rfl⟩ ?_
      intro s hs' hsn
      simp only [List.mem_map] at hs'
      obtain ⟨e, he', hse⟩ := hs'
      rw [List.mem_filter] at he'
      have hev := (hentry e he'.1 (by rw [← hse] at hsn; exact hsn)).1
      rw [← hse]
      exact hev
    · have hty' : classify (writeOnlyOf reg t.type) v (buildRemoteMap rs₁ n) =
          DiffType.unchanged := by
        rcases hc : classify (writeOnlyOf reg t.type) v (buildRemoteMap rs₁ n)
          with _ | _ | _ | _ | _
        · exact absurd (by simp [writeAttempted, hc]) hEw
        · exact absurd hc (classify_ne_remove _ _ _)
        · exact absurd (by simp [writeAttempted, hc]) hEw
        · rfl
        · exact absurd (by simp [writeAttempted, hc]) hEw
      have hrm : buildRemoteMap rs₁ n = some v := by
        rcases hopt : buildRemoteMap rs₁ n with _ | u
        · rw [hopt] at hty'
          simp [classify] at hty'
        · rw [hopt] at hty'
          by_cases hw : writeOnlyOf reg t.type
          · simp [classify, hw] at hty'
          · by_cases hvu : v = u
            · rw [hvu]
            · simp [classify, hw, hvu] at hty'
      have hnone : ∀ s ∈ (d₁.diffs.filter writeAttempted).map
          (fun e => SecretValue.mk e.name e.newValue), s.name ≠ n := by
        intro s hs' hsn
        simp only [List.mem_map] at hs'
        obtain ⟨e, he', hse⟩ := hs'
        rw [List.mem_filter] at he'
        have hev := hentry e he'.1 (by rw [← hse] at hsn; exact hsn)
        have hwa : writeAttempted e = false := by
          simp [writeAttempted, hev.2, hty']
        have h2 := he'.2
        rw [hwa] at h2
        exact Bool.noConfusion h2
      rw [foldl_remoteInsert_no_hit _ _ _ hnone]
      exact hrm
  constructor
  · intro e he
    rw [hdiffs₂] at he
    simp only [List.mem_filterMap] at he
    obtain ⟨n, hn, hpe⟩ := he
    obtain ⟨-, hsv, hne, hty, -, -⟩ := previewEntry_some_inv _ _ _ _ _ _ hpe
    have hrm2 := hval n hn e.newValue hsv hne
    rw [hty, hrm2, classify_some_self]
  · rw [hdiffs₁, hdiffs₂, previewEntry_names, previewEntry_names]

theorem sync_idempotence_witness :
    ({ name := "API_KEY", type := DiffType.unchanged, oldValue := "v1",
       newValue := "v1", environment := "production",
       sensitive := false } : SecretDiff).type = DiffType.unchanged ∧
    dW2.diffs.map SecretDiff.name = dW.diffs.map SecretDiff.name :=
  ⟨(sync_idempotence gW regW storeW storeW2 namesW srcW tW "production" optsW
      dW dW2 rW [StoreCall.set "API_KEY" "v1" "production"]
      [{ name := "API_KEY", value := "v0" }]
      rfl rfl rfl rfl rfl rfl rfl).1 _ (by simp [dW2]),
   (sync_idempotence gW regW storeW storeW2 namesW srcW tW "production" optsW
      dW dW2 rW [StoreCall.set "API_KEY" "v1" "production"]
      [{ name := "API_KEY", value := "v0" }]
      rfl rfl rfl rfl rfl rfl rfl).2⟩

end Dotenvy
